import Mathlib

/-!
A shallow embedding, in Lean 4, of the agent execution and activity-streaming
pipeline of the `wreckit_rust` repository, together with theorems settling the
specification claims about it.

Embedding conventions:
* Rust `String` is modelled by Lean `String` (byte lengths are taken with
  `String.utf8ByteSize`, matching Rust `str::len`).
* `serde_json::Value` is modelled by the inductive `Wreckit.Json`; JSON number
  values are kept as their lexemes (no claim depends on numeric values).
* `chrono::DateTime<Utc>` timestamps are modelled as `Nat` clock readings that
  are passed explicitly to every operation that calls `Utc::now()`.
* `HashMap<String, AgentActivity>` is modelled as an association list with
  unique keys (the map is only ever built from distinct item ids).
* Fallible Rust functions returning `Result` are modelled with `Except`.
-/

namespace Wreckit

/-- Model of `serde_json::Value` (src/agent/parser.rs uses it for tool payloads).
Numbers are kept as their source lexemes. -/
inductive Json where
  | null : Json
  | bool (b : Bool) : Json
  | num (lexeme : String) : Json
  | str (s : String) : Json
  | arr (elems : List Json) : Json
  | obj (fields : List (String × Json)) : Json

/-- Model of `serde_json::Value::get(key)` on objects: first field with the key;
`None` on non-objects. -/
def Json.get (j : Json) (key : String) : Option Json :=
  match j with
  | .obj fields => go fields
  | _ => none
where
  go : List (String × Json) → Option Json
  | [] => none
  | (k, v) :: rest => if k = key then some v else go rest

/-- Model of `serde_json::Value::as_str`. -/
def Json.asStr : Json → Option String
  | .str s => some s
  | _ => none

/-- Model of `AgentEvent` (src/tui/events.rs). -/
inductive AgentEvent where
  | assistantText (text : String) : AgentEvent
  | toolStarted (tool_use_id : String) (tool_name : String) (input : Json) : AgentEvent
  | toolResult (tool_use_id : String) (result : Json) : AgentEvent
  | toolError (tool_use_id : String) (error : String) : AgentEvent
  | error (message : String) : AgentEvent
  | runResult : AgentEvent

/-- Model of `ToolStatus` (src/tui/state.rs). -/
inductive ToolStatus where
  | running : ToolStatus
  | completed : ToolStatus
  | error : ToolStatus
deriving DecidableEq

/-- Model of `ToolExecution` (src/tui/state.rs); timestamps are `Nat` clock
readings. -/
structure ToolExecution where
  tool_use_id : String
  tool_name : String
  input : Json
  status : ToolStatus
  result : Option Json
  started_at : Nat
  finished_at : Option Nat

/-- Model of `AgentActivity` (src/tui/state.rs). -/
structure AgentActivity where
  thoughts : List String
  tools : List ToolExecution

/-- Model of `AgentActivity::default()`: empty buffers. -/
def AgentActivity.default : AgentActivity :=
  { thoughts := [], tools := [] }

/-- Model of `ItemState` (src/tui/state.rs). -/
structure ItemState where
  id : String
  state : String
  title : String
  current_story_id : Option String

/-- Model of `CurrentStory` (src/tui/state.rs). -/
structure CurrentStory where
  id : String
  title : String

/-- Model of `WorkflowState` (src/schemas/item.rs). -/
inductive WorkflowState where
  | idea | researched | planned | implementing | inPr | done
deriving DecidableEq

/-- Model of `Display` for `WorkflowState` (src/schemas/item.rs). -/
def WorkflowState.display : WorkflowState → String
  | .idea => "idea"
  | .researched => "researched"
  | .planned => "planned"
  | .implementing => "implementing"
  | .inPr => "in_pr"
  | .done => "done"

/-- The fields of `Item` (src/schemas/item.rs) that `TuiState::new` and
`ItemState::from` read; the remaining persisted-schema fields play no role in
the TUI state and are omitted. -/
structure Item where
  id : String
  title : String
  state : WorkflowState

/-- Model of `impl From<Item> for ItemState` (src/tui/state.rs). -/
def ItemState.fromItem (item : Item) : ItemState :=
  { id := item.id
    state := item.state.display
    title := item.title
    current_story_id := none }

/-- Model of `TuiState` (src/tui/state.rs). `activity_by_item` is the
`HashMap` modelled as an association list; `start_time` is a `Nat` clock
reading. -/
structure TuiState where
  current_item : Option String
  current_phase : Option String
  current_iteration : Nat
  max_iterations : Nat
  current_story : Option CurrentStory
  items : List ItemState
  completed_count : Nat
  total_count : Nat
  start_time : Nat
  logs : List String
  show_logs : Bool
  activity_by_item : List (String × AgentActivity)

/-- Model of `TuiState::MAX_THOUGHTS`. -/
def TuiState.MAX_THOUGHTS : Nat := 50

/-- Model of `TuiState::MAX_TOOLS`. -/
def TuiState.MAX_TOOLS : Nat := 20

/-- Model of `TuiState::MAX_LOGS`. -/
def TuiState.MAX_LOGS : Nat := 500

/-- Model of `TuiState::new` (src/tui/state.rs); `Utc::now()` is the explicit
`now` argument. -/
def TuiState.new (items : List Item) (now : Nat) : TuiState :=
  let item_states := items.map ItemState.fromItem
  { current_item := none
    current_phase := none
    current_iteration := 0
    max_iterations := 100
    current_story := none
    items := item_states
    completed_count := (items.filter (fun i => i.state = WorkflowState.done)).length
    total_count := items.length
    start_time := now
    logs := []
    show_logs := false
    activity_by_item := item_states.map (fun i => (i.id, AgentActivity.default)) }

/-- Lookup in the modelled `HashMap` (`activity_by_item.get`). -/
def assocFind {β : Type} (key : String) : List (String × β) → Option β
  | [] => none
  | (k, v) :: rest => if k = key then some v else assocFind key rest

/-- In-place modification through the modelled `HashMap`
(`activity_by_item.get_mut(key)` followed by mutation of the entry). -/
def assocModify {β : Type} (key : String) (f : β → β) :
    List (String × β) → List (String × β)
  | [] => []
  | (k, v) :: rest =>
    if k = key then (k, f v) :: rest else (k, v) :: assocModify key f rest

/-- Model of `TuiState::with_current_item`. -/
def TuiState.with_current_item (s : TuiState) (item : Option String) : TuiState :=
  { s with current_item := item }

/-- Model of `TuiState::with_current_phase`. -/
def TuiState.with_current_phase (s : TuiState) (phase : Option String) : TuiState :=
  { s with current_phase := phase }

/-- Model of `TuiState::with_iteration`. -/
def TuiState.with_iteration (s : TuiState) (iteration : Nat) : TuiState :=
  { s with current_iteration := iteration }

/-- Model of `TuiState::with_current_story`. -/
def TuiState.with_current_story (s : TuiState) (story : Option CurrentStory) : TuiState :=
  { s with current_story := story }

/-- The item-list mutation of `TuiState::with_item_state`: update the state
string of the first item with the id. -/
def updateItemStates (item_id : String) (state : String) : List ItemState → List ItemState
  | [] => []
  | i :: rest =>
    if i.id = item_id then { i with state := state } :: rest
    else i :: updateItemStates item_id state rest

/-- Model of `TuiState::with_item_state`: update the first item with the id. -/
def TuiState.with_item_state (s : TuiState) (item_id : String) (state : String) : TuiState :=
  { s with items := updateItemStates item_id state s.items }

/-- Model of `TuiState::with_completed_count`. -/
def TuiState.with_completed_count (s : TuiState) (count : Nat) : TuiState :=
  { s with completed_count := count }

/-- Model of `TuiState::with_logs`: append, then drain the excess from the
front past `MAX_LOGS`. -/
def TuiState.with_logs (s : TuiState) (logs : List String) : TuiState :=
  let appended := s.logs ++ logs
  { s with
    logs :=
      if appended.length > TuiState.MAX_LOGS then
        appended.drop (appended.length - TuiState.MAX_LOGS)
      else appended }

/-- Model of `TuiState::with_log`: push one, evict the oldest past `MAX_LOGS`. -/
def TuiState.with_log (s : TuiState) (log : String) : TuiState :=
  let appended := s.logs ++ [log]
  { s with
    logs := if appended.length > TuiState.MAX_LOGS then appended.drop 1 else appended }

/-- Model of `TuiState::with_show_logs`. -/
def TuiState.with_show_logs (s : TuiState) (value : Bool) : TuiState :=
  { s with show_logs := value }

/-- The thought-buffer mutation of `TuiState::append_thought` on one
`AgentActivity`: merge into the last thought when it is shorter than 120
bytes, otherwise push; then evict the oldest past `MAX_THOUGHTS`. -/
def AgentActivity.appendThought (a : AgentActivity) (thought : String) : AgentActivity :=
  let thoughts :=
    match a.thoughts.getLast? with
    | some last =>
      if last.utf8ByteSize < 120 then
        a.thoughts.dropLast ++ [last ++ " " ++ thought]
      else
        a.thoughts ++ [thought]
    | none => [thought]
  { a with
    thoughts := if thoughts.length > TuiState.MAX_THOUGHTS then thoughts.drop 1 else thoughts }

/-- Model of `TuiState::append_thought`: no-op when `item_id` is unknown. -/
def TuiState.append_thought (s : TuiState) (item_id : String) (thought : String) : TuiState :=
  { s with
    activity_by_item := assocModify item_id (fun a => a.appendThought thought) s.activity_by_item }

/-- The tool-buffer mutation of `TuiState::append_tool` on one
`AgentActivity`: push, then evict the oldest past `MAX_TOOLS`. -/
def AgentActivity.appendTool (a : AgentActivity) (tool : ToolExecution) : AgentActivity :=
  let tools := a.tools ++ [tool]
  { a with tools := if tools.length > TuiState.MAX_TOOLS then tools.drop 1 else tools }

/-- Model of `TuiState::append_tool`: no-op when `item_id` is unknown. -/
def TuiState.append_tool (s : TuiState) (item_id : String) (tool : ToolExecution) : TuiState :=
  { s with
    activity_by_item := assocModify item_id (fun a => a.appendTool tool) s.activity_by_item }

/-- The in-place update of the first tool with the given id, as in
`TuiState::update_tool_status`: set status and result unconditionally, and set
`finished_at` to the clock reading when the new status is not `Running`. -/
def updateFirstTool (tools : List ToolExecution) (tool_use_id : String)
    (status : ToolStatus) (result : Option Json) (now : Nat) : List ToolExecution :=
  match tools with
  | [] => []
  | t :: rest =>
    if t.tool_use_id = tool_use_id then
      { t with
        status := status
        result := result
        finished_at := if status ≠ ToolStatus.running then some now else t.finished_at } :: rest
    else t :: updateFirstTool rest tool_use_id status result now

/-- Model of `TuiState::update_tool_status`: no-op when `item_id` or the tool
id is unknown. `Utc::now()` is the explicit `now` argument. -/
def TuiState.update_tool_status (s : TuiState) (item_id : String) (tool_use_id : String)
    (status : ToolStatus) (result : Option Json) (now : Nat) : TuiState :=
  { s with
    activity_by_item :=
      assocModify item_id
        (fun a => { a with tools := updateFirstTool a.tools tool_use_id status result now })
        s.activity_by_item }

/-- Leading-pattern test on character lists (used to model Rust prefix tests). -/
def matchLeading : List Char → List Char → Option (List Char)
  | [], l => some l
  | _ :: _, [] => none
  | p :: ps, c :: cs => if p = c then matchLeading ps cs else none

/-- Find the earliest code fence (three backticks) in a character list,
returning the text before it and the text after it. -/
def findFence : List Char → Option (List Char × List Char)
  | [] => none
  | c :: cs =>
    match matchLeading [ '\x60', '\x60', '\x60' ] (c :: cs) with
    | some rest => some ([], rest)
    | none =>
      match findFence cs with
      | some (before, rest) => some (c :: before, rest)
      | none => none

/-- One pass of the non-greedy `replace_all` of fenced code blocks used by
`sanitize_assistant_text` (src/tui/events.rs): drop the earliest
fence-delimited block (the regex class there matches every character, newlines
included) and continue after it; `fuel` bounds the recursion. -/
def removeCodeBlocksAux (fuel : Nat) (l : List Char) : List Char :=
  match fuel with
  | 0 => l
  | fuel + 1 =>
    match findFence l with
    | none => l
    | some (before, afterOpen) =>
      match findFence afterOpen with
      | none => l
      | some (content, afterClose) =>
        let _ := content
        before ++ removeCodeBlocksAux fuel afterClose

/-- Model of the code-fence `Regex::replace_all(text, "")` in
`sanitize_assistant_text`. -/
def removeCodeBlocks (text : String) : String :=
  ⟨removeCodeBlocksAux text.data.length text.data⟩

/-- Model of Rust `str::split_whitespace` on a character list: the maximal
runs of non-whitespace characters, in order (`cur` accumulates the current
run, reversed). -/
def splitWsGo (cur : List Char) : List Char → List String
  | [] => if cur.isEmpty then [] else [⟨cur.reverse⟩]
  | c :: cs =>
    if c.isWhitespace then
      if cur.isEmpty then splitWsGo [] cs else ⟨cur.reverse⟩ :: splitWsGo [] cs
    else splitWsGo (c :: cur) cs

/-- Model of Rust `str::split_whitespace` on a character list. -/
def splitWsAux (l : List Char) : List String :=
  splitWsGo [] l

/-- Model of `sanitize_assistant_text` (src/tui/events.rs): trim, drop fenced
code blocks, trim again, collapse whitespace runs to single spaces, and drop
the text entirely when it is empty or starts with a raw tool-invocation
marker. -/
def sanitize_assistant_text (text : String) : Option String :=
  let text := text.trim
  if text = "" then none
  else
    let cleaned := removeCodeBlocks text
    let cleaned := cleaned.trim
    if cleaned = "" then none
    else
      let cleaned := String.intercalate " " (splitWsAux cleaned.data)
      if ("tool:".data).isPrefixOf cleaned.data then none
      else some cleaned

/-- Model of `TuiUpdate` (src/tui/runner.rs). -/
inductive TuiUpdate where
  | setCurrentItem (item : Option String) : TuiUpdate
  | setCurrentPhase (phase : Option String) : TuiUpdate
  | setIteration (iter : Nat) : TuiUpdate
  | setCurrentStory (story : Option String) : TuiUpdate
  | setItemState (item_id : String) (state : String) : TuiUpdate
  | setCompletedCount (count : Nat) : TuiUpdate
  | appendLogs (logs : List String) : TuiUpdate
  | toggleLogs (value : Bool) : TuiUpdate
  | agentEvent (item_id : String) (event : AgentEvent) : TuiUpdate

/-- Model of `TuiRunner::handle_agent_event` (src/tui/runner.rs); the clock
readings taken by `Utc::now()` inside the touched state methods are the
explicit `now` argument. -/
def handleAgentEvent (s : TuiState) (item_id : String) (event : AgentEvent) (now : Nat) :
    TuiState :=
  match event with
  | .assistantText text =>
    match sanitize_assistant_text text with
    | some cleaned => s.append_thought item_id cleaned
    | none => s
  | .toolStarted tool_use_id tool_name input =>
    s.append_tool item_id
      { tool_use_id := tool_use_id
        tool_name := tool_name
        input := input
        status := ToolStatus.running
        result := none
        started_at := now
        finished_at := none }
  | .toolResult tool_use_id result =>
    s.update_tool_status item_id tool_use_id ToolStatus.completed (some result) now
  | .toolError tool_use_id error =>
    (s.update_tool_status item_id tool_use_id ToolStatus.error none now).append_thought
      item_id ("[ERROR] " ++ error)
  | .error message => s.append_thought item_id ("[ERROR] " ++ message)
  | .runResult => s

/-- Model of one iteration of the state-update consumer loop spawned in
`TuiRunner::new` (src/tui/runner.rs): apply one `TuiUpdate` to the owned
state. `SetCurrentStory` performs no state change in the source (left as a
TODO there). -/
def applyUpdate (u : TuiUpdate) (now : Nat) (s : TuiState) : TuiState :=
  match u with
  | .setCurrentItem item => s.with_current_item item
  | .setCurrentPhase phase => s.with_current_phase phase
  | .setIteration iter => s.with_iteration iter
  | .setCurrentStory _ => s
  | .setItemState item_id state => s.with_item_state item_id state
  | .setCompletedCount count => s.with_completed_count count
  | .appendLogs logs => s.with_logs logs
  | .toggleLogs value => s.with_show_logs value
  | .agentEvent item_id event => handleAgentEvent s item_id event now

/-- Apply a sequence of `TuiUpdate`s in arrival order, as the consumer loop
does; `clock` supplies the successive `Utc::now()` readings. -/
def applyUpdates (cmds : List TuiUpdate) (clock : List Nat) (s : TuiState) : TuiState :=
  match cmds with
  | [] => s
  | u :: rest => applyUpdates rest clock.tail (applyUpdate u (clock.headD 0) s)

/-- The thought buffer of one item, empty when the item is unknown. -/
def thoughtsOf (s : TuiState) (item_id : String) : List String :=
  match assocFind item_id s.activity_by_item with
  | some a => a.thoughts
  | none => []

/-- The tool buffer of one item, empty when the item is unknown. -/
def toolsOf (s : TuiState) (item_id : String) : List ToolExecution :=
  match assocFind item_id s.activity_by_item with
  | some a => a.tools
  | none => []

/-- JSON insignificant whitespace (the characters `serde_json` skips). -/
def isJsonWs (c : Char) : Bool :=
  c = ' ' || c = '\t' || c = '\n' || c = '\r'

/-- Skip JSON insignificant whitespace. -/
def skipWs : List Char → List Char
  | [] => []
  | c :: cs => if isJsonWs c then skipWs cs else c :: cs

/-- Value of one hexadecimal digit. -/
def hexVal (c : Char) : Option Nat :=
  if '0' ≤ c ∧ c ≤ '9' then some (c.toNat - '0'.toNat)
  else if 'a' ≤ c ∧ c ≤ 'f' then some (c.toNat - 'a'.toNat + 10)
  else if 'A' ≤ c ∧ c ≤ 'F' then some (c.toNat - 'A'.toNat + 10)
  else none

/-- Decode a four-digit hexadecimal escape payload. -/
def hex4 : List Char → Option (Nat × List Char)
  | a :: b :: c :: d :: rest =>
    match hexVal a, hexVal b, hexVal c, hexVal d with
    | some va, some vb, some vc, some vd =>
      some (((va * 16 + vb) * 16 + vc) * 16 + vd, rest)
    | _, _, _, _ => none
  | _ => none

/-- Decode the body of a JSON string (after the opening quote), handling the
escape sequences and UTF-16 surrogate pairs `serde_json` accepts and rejecting
unescaped control characters and lone surrogates as it does. Returns the
decoded characters and the input past the closing quote. -/
def pStringAux : Nat → List Char → Option (List Char × List Char)
  | 0, _ => none
  | fuel + 1, l =>
    match l with
    | [] => none
    | c :: cs =>
      if c = '"' then some ([], cs)
      else if c = '\\' then
        match cs with
        | [] => none
        | e :: cs2 =>
          let simple : Option Char :=
            if e = '"' then some '"'
            else if e = '\\' then some '\\'
            else if e = '/' then some '/'
            else if e = 'b' then some (Char.ofNat 8)
            else if e = 'f' then some (Char.ofNat 12)
            else if e = 'n' then some '\n'
            else if e = 'r' then some '\r'
            else if e = 't' then some '\t'
            else none
          match simple with
          | some d =>
            match pStringAux fuel cs2 with
            | some (out, rest) => some (d :: out, rest)
            | none => none
          | none =>
            if e = 'u' then
              match hex4 cs2 with
              | some (n, cs3) =>
                if 0xD800 ≤ n ∧ n ≤ 0xDBFF then
                  match cs3 with
                  | '\\' :: 'u' :: cs4 =>
                    match hex4 cs4 with
                    | some (m, cs5) =>
                      if 0xDC00 ≤ m ∧ m ≤ 0xDFFF then
                        let combined := 0x10000 + (n - 0xD800) * 0x400 + (m - 0xDC00)
                        match pStringAux fuel cs5 with
                        | some (out, rest) => some (Char.ofNat combined :: out, rest)
                        | none => none
                      else none
                    | none => none
                  | _ => none
                else if 0xDC00 ≤ n ∧ n ≤ 0xDFFF then none
                else
                  match pStringAux fuel cs3 with
                  | some (out, rest) => some (Char.ofNat n :: out, rest)
                  | none => none
              | none => none
            else none
      else if c.toNat < 0x20 then none
      else
        match pStringAux fuel cs with
        | some (out, rest) => some (c :: out, rest)
        | none => none

/-- Longest leading run of decimal digits. -/
def digitRun : List Char → List Char × List Char
  | [] => ([], [])
  | c :: cs =>
    if c.isDigit then
      let (run, rest) := digitRun cs
      (c :: run, rest)
    else ([], c :: cs)

/-- Parse a JSON number lexeme with the `serde_json` number grammar (optional minus, an
integer part with no leading zero, optional fraction, optional exponent).
Returns the lexeme and the remaining input. -/
def pNumber (l : List Char) : Option (List Char × List Char) :=
  let (minus, l1) :=
    match l with
    | '-' :: rest => (['-'], rest)
    | _ => (([] : List Char), l)
  match l1 with
  | [] => none
  | c :: cs =>
    if c = '0' then
      let (frac, l2) := pFrac cs
      some (minus ++ [c] ++ frac, l2)
    else if c.isDigit then
      let (run, l2) := digitRun cs
      let (frac, l3) := pFrac l2
      some (minus ++ [c] ++ run ++ frac, l3)
    else none
where
  /-- Optional fraction then optional exponent. -/
  pFrac (l : List Char) : List Char × List Char :=
    let (fracPart, l2) :=
      match l with
      | '.' :: rest =>
        match digitRun rest with
        | ([], _) => (([] : List Char), l)
        | (run, rest2) => ('.' :: run, rest2)
      | _ => (([] : List Char), l)
    let (expPart, l3) :=
      match l2 with
      | e :: rest =>
        if e = 'e' ∨ e = 'E' then
          let (sign, rest2) :=
            match rest with
            | s :: rest2 => if s = '+' ∨ s = '-' then ([s], rest2) else (([] : List Char), rest)
            | [] => (([] : List Char), rest)
          match digitRun rest2 with
          | ([], _) => (([] : List Char), l2)
          | (run, rest3) => (e :: sign ++ run, rest3)
        else (([] : List Char), l2)
      | [] => (([] : List Char), l2)
    (fracPart ++ expPart, l3)

mutual

/-- Parse one JSON value (model of `serde_json` value parsing); `fuel` bounds
the recursion and is chosen large enough for the input at the top level. -/
def pValue : Nat → List Char → Option (Json × List Char)
  | 0, _ => none
  | fuel + 1, l =>
    match skipWs l with
    | [] => none
    | c :: cs =>
      if c = 'n' then
        match matchLeading [ 'u', 'l', 'l' ] cs with
        | some rest => some (Json.null, rest)
        | none => none
      else if c = 't' then
        match matchLeading [ 'r', 'u', 'e' ] cs with
        | some rest => some (Json.bool true, rest)
        | none => none
      else if c = 'f' then
        match matchLeading [ 'a', 'l', 's', 'e' ] cs with
        | some rest => some (Json.bool false, rest)
        | none => none
      else if c = '"' then
        match pStringAux (cs.length + 1) cs with
        | some (out, rest) => some (Json.str ⟨out⟩, rest)
        | none => none
      else if c = '[' then
        match skipWs cs with
        | ']' :: rest => some (Json.arr [], rest)
        | l2 => pElems fuel l2
      else if c = '\x7b' then
        match skipWs cs with
        | '\x7d' :: rest => some (Json.obj [], rest)
        | l2 => pMembers fuel l2
      else if c = '-' ∨ c.isDigit then
        match pNumber (c :: cs) with
        | some (lex, rest) => some (Json.num ⟨lex⟩, rest)
        | none => none
      else none

/-- Parse the non-empty element list of a JSON array, up to and including the
closing bracket. -/
def pElems : Nat → List Char → Option (Json × List Char)
  | 0, _ => none
  | fuel + 1, l =>
    match pValue fuel l with
    | some (v, rest) =>
      match skipWs rest with
      | ',' :: rest2 =>
        match pElems fuel rest2 with
        | some (Json.arr vs, rest3) => some (Json.arr (v :: vs), rest3)
        | _ => none
      | ']' :: rest2 => some (Json.arr [v], rest2)
      | _ => none
    | none => none

/-- Parse the non-empty member list of a JSON object, up to and including the
closing brace. -/
def pMembers : Nat → List Char → Option (Json × List Char)
  | 0, _ => none
  | fuel + 1, l =>
    match skipWs l with
    | '"' :: cs =>
      match pStringAux (cs.length + 1) cs with
      | some (key, rest) =>
        match skipWs rest with
        | ':' :: rest2 =>
          match pValue fuel rest2 with
          | some (v, rest3) =>
            match skipWs rest3 with
            | ',' :: rest4 =>
              match pMembers fuel rest4 with
              | some (Json.obj fields, rest5) =>
                some (Json.obj ((⟨key⟩, v) :: fields), rest5)
              | _ => none
            | '\x7d' :: rest4 => some (Json.obj [(⟨key⟩, v)], rest4)
            | _ => none
          | none => none
        | _ => none
      | none => none
    | _ => none

end

/-- Model of `serde_json::from_str::<Value>`: parse one value and require only
whitespace after it. -/
def parseJson (s : String) : Option Json :=
  let l := s.data
  match pValue (4 * l.length + 4) l with
  | some (v, rest) => if (skipWs rest).isEmpty then some v else none
  | none => none

/-- Shortest span before the earliest occurrence of `close`, rejecting spans
that contain a newline (the regex dot in src/agent/parser.rs does not match
newlines); returns the span when the closing marker is found. -/
def contentTo (close : List Char) : List Char → Option (List Char)
  | [] => (matchLeading close []).map (fun _ => [])
  | c :: cs =>
    match matchLeading close (c :: cs) with
    | some _ => some []
    | none =>
      if c = '\n' then none
      else
        match contentTo close cs with
        | some content => some (c :: content)
        | none => none

/-- First capture of the non-greedy pattern `open (.*?) close`: try each start
position left to right; at the earliest position where the opening marker
matches and a closing marker follows (with no intervening newline), capture
the shortest span between them, as the Rust regex crate does. -/
def firstCaptureAux (openT closeT : List Char) : List Char → Option (List Char)
  | [] => none
  | c :: cs =>
    match matchLeading openT (c :: cs) with
    | some afterOpen =>
      match contentTo closeT afterOpen with
      | some content => some content
      | none => firstCaptureAux openT closeT cs
    | none => firstCaptureAux openT closeT cs

/-- First capture of `<tag>(.*?)</tag>` on a line (the three lazy regexes of
src/agent/parser.rs). -/
def extractTag (tag : String) (line : String) : Option String :=
  (firstCaptureAux ("<" ++ tag ++ ">").data ("</" ++ tag ++ ">").data line.data).map
    (fun cs => ⟨cs⟩)

/-- The events contributed by a `tool_use` marker on a line: requires a JSON
payload with string fields `toolUseId` and `name`; `input` defaults to null
(the first block of `parse_agent_line`, src/agent/parser.rs). -/
def toolUseEventsOf (line : String) : List AgentEvent :=
  match extractTag "tool_use" line with
  | some content =>
    match parseJson content with
    | some parsed =>
      match (parsed.get "toolUseId").bind Json.asStr with
      | some tool_use_id =>
        match (parsed.get "name").bind Json.asStr with
        | some tool_name =>
          [AgentEvent.toolStarted tool_use_id tool_name ((parsed.get "input").getD Json.null)]
        | none => []
      | none => []
    | none => []
  | none => []

/-- The events contributed by a `tool_result` marker on a line: requires a
JSON payload with a string field `toolUseId`; `content` defaults to null (the
second block of `parse_agent_line`). -/
def toolResultEventsOf (line : String) : List AgentEvent :=
  match extractTag "tool_result" line with
  | some content =>
    match parseJson content with
    | some parsed =>
      match (parsed.get "toolUseId").bind Json.asStr with
      | some tool_use_id =>
        [AgentEvent.toolResult tool_use_id ((parsed.get "content").getD Json.null)]
      | none => []
    | none => []
  | none => []

/-- The events contributed by an `assistant_text` marker on a line (the third
block of `parse_agent_line`). -/
def assistantEventsOf (line : String) : List AgentEvent :=
  match extractTag "assistant_text" line with
  | some content => [AgentEvent.assistantText content]
  | none => []

/-- Model of `parse_agent_line` (src/agent/parser.rs): the tool-use,
tool-result and assistant-text events found on one output line, in that
order. The function is total: malformed payloads contribute no events and
never an error. -/
def parse_agent_line (line : String) : List AgentEvent :=
  toolUseEventsOf line ++ toolResultEventsOf line ++ assistantEventsOf line

/-- Model of `WreckitError` (src/errors.rs); each variant carries its message.
`Interrupted` carries none and `Wrapped` carries context and message. -/
inductive WreckitError where
  | repoNotFound (msg : String) : WreckitError
  | invalidJson (msg : String) : WreckitError
  | schemaValidation (msg : String) : WreckitError
  | fileNotFound (msg : String) : WreckitError
  | configError (msg : String) : WreckitError
  | agentError (msg : String) : WreckitError
  | gitError (msg : String) : WreckitError
  | timeout (msg : String) : WreckitError
  | interrupted : WreckitError
  | stateTransition (msg : String) : WreckitError
  | ioError (msg : String) : WreckitError
  | wrapped (context : String) (message : String) : WreckitError

/-- Model of `AgentMode` (src/schemas/config.rs). -/
inductive AgentMode where
  | process : AgentMode

/-- Model of `AgentConfig` (src/schemas/config.rs). -/
structure AgentConfig where
  mode : AgentMode
  command : String
  args : List String
  completion_signal : String

/-- Model of `AgentResult` (src/agent/runner.rs). -/
structure AgentResult where
  success : Bool
  output : String
  timed_out : Bool
  exit_code : Option Int
  completion_detected : Bool

/-- Model of `RunAgentOptions` (src/agent/runner.rs). The optional
`on_stdout`/`on_stderr` callbacks are omitted: the source invokes them on the
accumulated outputs but they do not influence the returned result. -/
structure RunAgentOptions where
  config : AgentConfig
  cwd : String
  prompt : String
  dry_run : Bool
  timeout_seconds : Nat

/-- Model of `std::process::ExitStatus` for a process observed to exit:
`code` is `none` when the process was terminated by a signal. -/
structure ExitStatus where
  code : Option Int

/-- Model of `ExitStatus::success()`: exit code zero. -/
def ExitStatus.success (st : ExitStatus) : Bool :=
  st.code = some 0

/-- The environment of one non-dry run: what the operating system did at each
suspension point of `run_agent` (src/agent/runner.rs). `spawn` and
`stdinWrite` carry the failure message on error; `timedOut` tells whether the
configured timeout elapsed before stream reading and the process wait
completed; `stdoutOutput`/`stderrOutput` are the accumulated, newline-joined
stream texts; `wait` is the outcome of `child.wait()` when the race completed
in time. -/
structure ProcEnv where
  spawn : Except String Unit
  stdinWrite : Except String Unit
  timedOut : Bool
  stdoutOutput : String
  stderrOutput : String
  wait : Except String ExitStatus

/-- Model of Rust `str::contains` (substring containment). -/
def strContainsAux (needle : List Char) : List Char → Bool
  | [] => needle.isEmpty
  | c :: cs => needle.isPrefixOf (c :: cs) || strContainsAux needle cs

/-- Model of Rust `str::contains` on strings. -/
def strContains (haystack pat : String) : Bool :=
  strContainsAux pat.data haystack.data

/-- Model of `run_agent` (src/agent/runner.rs), with the process environment
made explicit. The second component of a successful return is the list of
`AgentEvent`s the runner publishes on the per-run side-channel during the
run: the source sends none anywhere (its `RunAgentOptions` has no event
channel and it never calls `parse_agent_line`), so every branch returns the
empty list. In the timeout branch the accumulated `output` variable is still
the empty string, because the source only appends the stream texts to it in
the completed branch. -/
def run_agent (options : RunAgentOptions) (env : ProcEnv) :
    Except WreckitError (AgentResult × List AgentEvent) :=
  if options.dry_run then
    Except.ok
      ({ success := true
         output := "[DRY RUN] Would execute agent"
         timed_out := false
         exit_code := some 0
         completion_detected := true }, [])
  else
    match env.spawn with
    | Except.error e => Except.error (WreckitError.agentError ("Failed to spawn agent: " ++ e))
    | Except.ok _ =>
      match env.stdinWrite with
      | Except.error e =>
        Except.error (WreckitError.agentError ("Failed to write to stdin: " ++ e))
      | Except.ok _ =>
        if env.timedOut then
          Except.ok
            ({ success := false
               output := ""
               timed_out := true
               exit_code := none
               completion_detected := false }, [])
        else
          let output := env.stdoutOutput ++ env.stderrOutput
          let completion_detected := strContains output options.config.completion_signal
          match env.wait with
          | Except.ok status =>
            Except.ok
              ({ success := status.success && completion_detected
                 output := output
                 timed_out := false
                 exit_code := status.code
                 completion_detected := completion_detected }, [])
          | Except.error e =>
            Except.error (WreckitError.agentError ("Failed to wait for agent: " ++ e))

/-- The bounded-buffer invariant of the state store: the thought buffer of
every run holds at most `MAX_THOUGHTS` entries, the tool buffer of every run at most
`MAX_TOOLS`, and the global log buffer at most `MAX_LOGS`. -/
def capsInv (s : TuiState) : Prop :=
  (∀ p ∈ s.activity_by_item,
      p.2.thoughts.length ≤ TuiState.MAX_THOUGHTS ∧ p.2.tools.length ≤ TuiState.MAX_TOOLS) ∧
    s.logs.length ≤ TuiState.MAX_LOGS

instance capsInvDecidable (s : TuiState) : Decidable (capsInv s) := by
  unfold capsInv
  infer_instance

/-! The timestamp-erased view of the TUI state, used to state in what sense
replaying an update sequence is deterministic: it keeps every field except
the wall-clock readings (`start_time`, `started_at`, and the value inside
`finished_at`, whose presence is kept as a flag). -/

/-- The type `ToolExecution` with its clock readings erased. -/
structure ToolExecutionE where
  tool_use_id : String
  tool_name : String
  input : Json
  status : ToolStatus
  result : Option Json
  finished : Bool

/-- Erase the clock readings of a `ToolExecution`. -/
def eraseTool (t : ToolExecution) : ToolExecutionE :=
  { tool_use_id := t.tool_use_id
    tool_name := t.tool_name
    input := t.input
    status := t.status
    result := t.result
    finished := t.finished_at.isSome }

/-- The type `AgentActivity` with clock readings erased. -/
structure AgentActivityE where
  thoughts : List String
  tools : List ToolExecutionE

/-- Erase the clock readings of an `AgentActivity`. -/
def eraseActivity (a : AgentActivity) : AgentActivityE :=
  { thoughts := a.thoughts, tools := a.tools.map eraseTool }

/-- The type `TuiState` with all clock readings erased. -/
structure TuiStateE where
  current_item : Option String
  current_phase : Option String
  current_iteration : Nat
  max_iterations : Nat
  current_story : Option CurrentStory
  items : List ItemState
  completed_count : Nat
  total_count : Nat
  logs : List String
  show_logs : Bool
  activity_by_item : List (String × AgentActivityE)

/-- Erase the clock readings of a `TuiState`. -/
def eraseState (s : TuiState) : TuiStateE :=
  { current_item := s.current_item
    current_phase := s.current_phase
    current_iteration := s.current_iteration
    max_iterations := s.max_iterations
    current_story := s.current_story
    items := s.items
    completed_count := s.completed_count
    total_count := s.total_count
    logs := s.logs
    show_logs := s.show_logs
    activity_by_item := s.activity_by_item.map (fun p => (p.1, eraseActivity p.2)) }

/-- The thought-buffer mutation of `append_thought`, on the erased state. -/
def AgentActivityE.appendThought (a : AgentActivityE) (thought : String) : AgentActivityE :=
  let thoughts :=
    match a.thoughts.getLast? with
    | some last =>
      if last.utf8ByteSize < 120 then
        a.thoughts.dropLast ++ [last ++ " " ++ thought]
      else
        a.thoughts ++ [thought]
    | none => [thought]
  { a with
    thoughts := if thoughts.length > TuiState.MAX_THOUGHTS then thoughts.drop 1 else thoughts }

/-- The tool-buffer mutation of `append_tool`, on the erased state. -/
def AgentActivityE.appendTool (a : AgentActivityE) (tool : ToolExecutionE) : AgentActivityE :=
  let tools := a.tools ++ [tool]
  { a with tools := if tools.length > TuiState.MAX_TOOLS then tools.drop 1 else tools }

/-- The first-matching-tool update of `update_tool_status`, on the erased
state: `finished` becomes true when the new status is not `Running`. -/
def updateFirstToolE (tools : List ToolExecutionE) (tool_use_id : String)
    (status : ToolStatus) (result : Option Json) : List ToolExecutionE :=
  match tools with
  | [] => []
  | t :: rest =>
    if t.tool_use_id = tool_use_id then
      { t with
        status := status
        result := result
        finished := if status ≠ ToolStatus.running then true else t.finished } :: rest
    else t :: updateFirstToolE rest tool_use_id status result

/-- The operation `append_thought` on the erased state. -/
def TuiStateE.append_thought (s : TuiStateE) (item_id : String) (thought : String) : TuiStateE :=
  { s with
    activity_by_item := assocModify item_id (fun a => a.appendThought thought) s.activity_by_item }

/-- The operation `append_tool` on the erased state. -/
def TuiStateE.append_tool (s : TuiStateE) (item_id : String) (tool : ToolExecutionE) : TuiStateE :=
  { s with
    activity_by_item := assocModify item_id (fun a => a.appendTool tool) s.activity_by_item }

/-- The operation `update_tool_status` on the erased state. -/
def TuiStateE.update_tool_status (s : TuiStateE) (item_id : String) (tool_use_id : String)
    (status : ToolStatus) (result : Option Json) : TuiStateE :=
  { s with
    activity_by_item :=
      assocModify item_id
        (fun a => { a with tools := updateFirstToolE a.tools tool_use_id status result })
        s.activity_by_item }

/-- The operation `handle_agent_event` on the erased state (no clock argument). -/
def handleAgentEventE (s : TuiStateE) (item_id : String) (event : AgentEvent) : TuiStateE :=
  match event with
  | .assistantText text =>
    match sanitize_assistant_text text with
    | some cleaned => s.append_thought item_id cleaned
    | none => s
  | .toolStarted tool_use_id tool_name input =>
    s.append_tool item_id
      { tool_use_id := tool_use_id
        tool_name := tool_name
        input := input
        status := ToolStatus.running
        result := none
        finished := false }
  | .toolResult tool_use_id result =>
    s.update_tool_status item_id tool_use_id ToolStatus.completed (some result)
  | .toolError tool_use_id error =>
    (s.update_tool_status item_id tool_use_id ToolStatus.error none).append_thought
      item_id ("[ERROR] " ++ error)
  | .error message => s.append_thought item_id ("[ERROR] " ++ message)
  | .runResult => s

/-- One consumer-loop step on the erased state. -/
def applyUpdateE (u : TuiUpdate) (s : TuiStateE) : TuiStateE :=
  match u with
  | .setCurrentItem item => { s with current_item := item }
  | .setCurrentPhase phase => { s with current_phase := phase }
  | .setIteration iter => { s with current_iteration := iter }
  | .setCurrentStory _ => s
  | .setItemState item_id state => { s with items := updateItemStates item_id state s.items }
  | .setCompletedCount count => { s with completed_count := count }
  | .appendLogs logs =>
    let appended := s.logs ++ logs
    { s with
      logs :=
        if appended.length > TuiState.MAX_LOGS then
          appended.drop (appended.length - TuiState.MAX_LOGS)
        else appended }
  | .toggleLogs value => { s with show_logs := value }
  | .agentEvent item_id event => handleAgentEventE s item_id event

/-- A sequence of consumer-loop steps on the erased state. -/
def applyUpdatesE (cmds : List TuiUpdate) (s : TuiStateE) : TuiStateE :=
  match cmds with
  | [] => s
  | u :: rest => applyUpdatesE rest (applyUpdateE u s)

/-! Concrete fixtures used by counterexamples and witnesses. -/

/-- A single workflow item. -/
def itemA : Item :=
  { id := "a", title := "Item A", state := WorkflowState.idea }

/-- A fresh TUI state over one item, created at clock reading 0. -/
def freshDemo : TuiState :=
  TuiState.new [itemA] 0

/-- The output line used by `test_run_agent_with_tui_forwards_events`
(src/tui/agent_helper.rs). -/
def demoLine : String :=
  "<assistant_text>Thinking about the problem</assistant_text>"

/-- The agent configuration of that test: echo the tagged line, completion
signal contained in it. -/
def demoConfig : AgentConfig :=
  { mode := AgentMode.process
    command := "echo"
    args := [demoLine]
    completion_signal := "Thinking" }

/-- A non-dry run of that configuration. -/
def demoOptions : RunAgentOptions :=
  { config := demoConfig
    cwd := "."
    prompt := ""
    dry_run := false
    timeout_seconds := 10 }

/-- The environment in which the echo process runs: everything succeeds, the
tagged line appears on stdout, exit code 0. -/
def demoEnv : ProcEnv :=
  { spawn := Except.ok ()
    stdinWrite := Except.ok ()
    timedOut := false
    stdoutOutput := demoLine ++ "\n"
    stderrOutput := ""
    wait := Except.ok { code := some 0 } }

/-- An environment in which the timeout elapses before the read-and-wait
phase completes. -/
def timeoutEnv : ProcEnv :=
  { spawn := Except.ok ()
    stdinWrite := Except.ok ()
    timedOut := true
    stdoutOutput := ""
    stderrOutput := ""
    wait := Except.error "never observed" }

/-- An environment in which waiting for the process fails. -/
def waitFailEnv : ProcEnv :=
  { spawn := Except.ok ()
    stdinWrite := Except.ok ()
    timedOut := false
    stdoutOutput := ""
    stderrOutput := ""
    wait := Except.error "wait failed" }

/-- A 120-byte thought stem; every `longThought` built on it exceeds the
120-byte merge threshold. -/
def longBase : String :=
  ⟨List.replicate 120 'x'⟩

/-- The i-th long, non-mergeable thought. -/
def longThought (i : Nat) : String :=
  longBase ++ toString i

/-- Append a list of thoughts to one item, one `append_thought` at a time. -/
def appendManyThoughts (s : TuiState) (item_id : String) (thoughts : List String) : TuiState :=
  thoughts.foldl (fun st th => st.append_thought item_id th) s

/-- The state after appending 100 long, non-mergeable thoughts to the fresh
demo state. -/
def c7Final : TuiState :=
  appendManyThoughts freshDemo "a" ((List.range 100).map longThought)

/-- A reachable state with one completed tool: start tool `t1`, then complete
it. -/
def completedToolState : TuiState :=
  applyUpdates
    [TuiUpdate.agentEvent "a" (AgentEvent.toolStarted "t1" "read_file" Json.null),
     TuiUpdate.agentEvent "a" (AgentEvent.toolResult "t1" (Json.str "ok"))]
    [1, 2] freshDemo

/-- The single-command sequence used to exhibit clock dependence of replay. -/
def c3Cmds : List TuiUpdate :=
  [TuiUpdate.agentEvent "a" (AgentEvent.toolStarted "t1" "read_file" Json.null)]

/-- The tool execution created by a `ToolStarted` event for tool `t9` at
clock reading 7. -/
def witnessTool : ToolExecution :=
  { tool_use_id := "t9"
    tool_name := "read_file"
    input := Json.null
    status := ToolStatus.running
    result := none
    started_at := 7
    finished_at := none }

/-! Theorems. -/

theorem assocModify_of_find_none {β : Type} (key : String) (f : β → β)
    (l : List (String × β)) (h : assocFind key l = none) : assocModify key f l = l := by
  induction l with
  | nil => rfl
  | cons p rest ih =>
    obtain ⟨k, v⟩ := p
    by_cases hk : k = key
    · simp [assocFind, hk] at h
    · simp only [assocFind, if_neg hk] at h
      simp [assocModify, if_neg hk, ih h]

theorem assocModify_of_fix {β : Type} (key : String) (f : β → β)
    (l : List (String × β)) (h : ∀ v, assocFind key l = some v → f v = v) :
    assocModify key f l = l := by
  induction l with
  | nil => rfl
  | cons p rest ih =>
    obtain ⟨k, v⟩ := p
    by_cases hk : k = key
    · have hv : f v = v := h v (by simp [assocFind, hk])
      simp [assocModify, hk, hv]
    · simp only [assocModify, if_neg hk]
      have : assocModify key f rest = rest := by
        apply ih
        intro w hw
        apply h
        simpa [assocFind, if_neg hk] using hw
      rw [this]

theorem assocFind_assocModify {β : Type} (run key : String) (f : β → β)
    (l : List (String × β)) :
    assocFind run (assocModify key f l) =
      if run = key then (assocFind run l).map f else assocFind run l := by
  induction l with
  | nil => by_cases h : run = key <;> simp [assocFind, assocModify, h]
  | cons p rest ih =>
    obtain ⟨k, v⟩ := p
    by_cases hk : k = key
    · by_cases hr : k = run
      · subst hk; subst hr
        simp [assocFind, assocModify]
      · subst hk
        have hrk : ¬ run = k := fun h => hr h.symm
        simp [assocFind, assocModify, hr, hrk]
    · by_cases hr : k = run
      · subst hr
        have hrk : ¬ k = key := hk
        simp [assocFind, assocModify, hrk, hk]
      · simp [assocFind, assocModify, hk, hr, ih]

theorem updateFirstTool_of_no_match (l : List ToolExecution) (tool_use_id : String)
    (status : ToolStatus) (result : Option Json) (now : Nat)
    (h : ∀ t ∈ l, t.tool_use_id ≠ tool_use_id) :
    updateFirstTool l tool_use_id status result now = l := by
  induction l with
  | nil => rfl
  | cons t rest ih =>
    have ht : t.tool_use_id ≠ tool_use_id := h t (List.mem_cons_self t rest)
    simp only [updateFirstTool, if_neg ht]
    rw [ih (fun u hu => h u (List.mem_cons_of_mem t hu))]

theorem updateFirstTool_length (l : List ToolExecution) (tool_use_id : String)
    (status : ToolStatus) (result : Option Json) (now : Nat) :
    (updateFirstTool l tool_use_id status result now).length = l.length := by
  induction l with
  | nil => rfl
  | cons t rest ih =>
    by_cases ht : t.tool_use_id = tool_use_id <;>
      simp [updateFirstTool, ht, ih]

theorem mem_updateFirstTool_running (l : List ToolExecution) (tool_use_id : String)
    (status : ToolStatus) (result : Option Json) (now : Nat)
    (hst : status ≠ ToolStatus.running) (t : ToolExecution)
    (hmem : t ∈ updateFirstTool l tool_use_id status result now)
    (hrun : t.status = ToolStatus.running) : t ∈ l := by
  induction l with
  | nil => simp [updateFirstTool] at hmem
  | cons u rest ih =>
    by_cases hu : u.tool_use_id = tool_use_id
    · simp only [updateFirstTool, if_pos hu] at hmem
      rcases List.mem_cons.mp hmem with heq | htail
      · exfalso
        apply hst
        rw [← hrun, heq]
      · exact List.mem_cons_of_mem u htail
    · simp only [updateFirstTool, if_neg hu] at hmem
      rcases List.mem_cons.mp hmem with heq | htail
      · exact heq ▸ List.mem_cons_self u rest
      · exact List.mem_cons_of_mem u (ih htail)

/-- C8: a `ToolResult` update whose tool id matches no tool in the tool
buffer of the run leaves the entire state unchanged. -/
theorem tool_result_unknown_tool_id_noop (s : TuiState) (item_id tool_use_id : String)
    (result : Json) (now : Nat)
    (h : ∀ t ∈ toolsOf s item_id, t.tool_use_id ≠ tool_use_id) :
    applyUpdate (TuiUpdate.agentEvent item_id (AgentEvent.toolResult tool_use_id result)) now s
      = s := by
  have hmod :
      assocModify item_id
        (fun a =>
          { a with
            tools := updateFirstTool a.tools tool_use_id ToolStatus.completed (some result) now })
        s.activity_by_item = s.activity_by_item := by
    apply assocModify_of_fix
    intro v hv
    have htools : toolsOf s item_id = v.tools := by simp [toolsOf, hv]
    rw [htools] at h
    rw [updateFirstTool_of_no_match v.tools _ _ _ _ h]
  show s.update_tool_status item_id tool_use_id ToolStatus.completed (some result) now = s
  unfold TuiState.update_tool_status
  rw [hmod]

/-- Witness for C8: completing an unknown tool id `t2` on a state whose only
tool is `t1` changes nothing. -/
theorem tool_result_unknown_tool_id_noop_witness :
    applyUpdate (TuiUpdate.agentEvent "a" (AgentEvent.toolResult "t2" Json.null)) 9
        completedToolState = completedToolState :=
  tool_result_unknown_tool_id_noop completedToolState "a" "t2" Json.null 9 (by decide)

theorem append_thought_unknown_item (s : TuiState) (item_id thought : String)
    (h : assocFind item_id s.activity_by_item = none) :
    s.append_thought item_id thought = s := by
  unfold TuiState.append_thought
  rw [assocModify_of_find_none _ _ _ h]

theorem append_tool_unknown_item (s : TuiState) (item_id : String) (tool : ToolExecution)
    (h : assocFind item_id s.activity_by_item = none) :
    s.append_tool item_id tool = s := by
  unfold TuiState.append_tool
  rw [assocModify_of_find_none _ _ _ h]

theorem update_tool_status_unknown_item (s : TuiState) (item_id tool_use_id : String)
    (status : ToolStatus) (result : Option Json) (now : Nat)
    (h : assocFind item_id s.activity_by_item = none) :
    s.update_tool_status item_id tool_use_id status result now = s := by
  unfold TuiState.update_tool_status
  rw [assocModify_of_find_none _ _ _ h]

/-- C10: an `AgentEvent` for an item id that is not a key of the per-item
activity map leaves the entire state unchanged, and an `AgentEvent` for one
item never affects the activity of any other item. -/
theorem unknown_item_events_dropped :
    (∀ (s : TuiState) (item_id : String) (e : AgentEvent) (now : Nat),
        assocFind item_id s.activity_by_item = none →
        applyUpdate (TuiUpdate.agentEvent item_id e) now s = s) ∧
      (∀ (s : TuiState) (item_id : String) (e : AgentEvent) (now : Nat) (other : String),
        other ≠ item_id →
        assocFind other (applyUpdate (TuiUpdate.agentEvent item_id e) now s).activity_by_item =
          assocFind other s.activity_by_item) := by
  constructor
  · intro s item_id e now h
    cases e with
    | assistantText text =>
      cases hsan : sanitize_assistant_text text with
      | some cleaned =>
        have hred :
            applyUpdate (TuiUpdate.agentEvent item_id (AgentEvent.assistantText text)) now s =
              s.append_thought item_id cleaned := by
          simp [applyUpdate, handleAgentEvent, hsan]
        rw [hred]
        exact append_thought_unknown_item s item_id cleaned h
      | none => simp [applyUpdate, handleAgentEvent, hsan]
    | toolStarted tool_use_id tool_name input =>
      exact append_tool_unknown_item s item_id _ h
    | toolResult tool_use_id result =>
      exact update_tool_status_unknown_item s item_id tool_use_id _ _ now h
    | toolError tool_use_id error =>
      show ((s.update_tool_status item_id tool_use_id ToolStatus.error none now).append_thought
          item_id ("[ERROR] " ++ error)) = s
      rw [update_tool_status_unknown_item s item_id tool_use_id _ _ now h]
      exact append_thought_unknown_item s item_id _ h
    | error message => exact append_thought_unknown_item s item_id _ h
    | runResult => rfl
  · intro s item_id e now other hne
    have key : ∀ (f : AgentActivity → AgentActivity) (l : List (String × AgentActivity)),
        assocFind other (assocModify item_id f l) = assocFind other l := by
      intro f l
      rw [assocFind_assocModify, if_neg hne]
    cases e with
    | assistantText text =>
      cases hsan : sanitize_assistant_text text with
      | some cleaned =>
        have hred :
            applyUpdate (TuiUpdate.agentEvent item_id (AgentEvent.assistantText text)) now s =
              s.append_thought item_id cleaned := by
          simp [applyUpdate, handleAgentEvent, hsan]
        rw [hred]
        exact key _ _
      | none =>
        have hred :
            applyUpdate (TuiUpdate.agentEvent item_id (AgentEvent.assistantText text)) now s =
              s := by
          simp [applyUpdate, handleAgentEvent, hsan]
        rw [hred]
    | toolStarted tool_use_id tool_name input => exact key _ _
    | toolResult tool_use_id result => exact key _ _
    | toolError tool_use_id error =>
      show assocFind other
          (((s.update_tool_status item_id tool_use_id ToolStatus.error none now).append_thought
            item_id ("[ERROR] " ++ error)).activity_by_item) = _
      simp only [TuiState.append_thought, TuiState.update_tool_status]
      rw [key, key]
    | error message => exact key _ _
    | runResult => rfl

/-- Witness for C10: an error event for the unknown item `zzz` leaves the
fresh demo state unchanged. -/
theorem unknown_item_events_dropped_witness :
    applyUpdate (TuiUpdate.agentEvent "zzz" (AgentEvent.error "boom")) 3 freshDemo = freshDemo :=
  unknown_item_events_dropped.1 freshDemo "zzz" (AgentEvent.error "boom") 3 rfl

/-- C4: for every run with `dry_run=false` whose stream reading and process
wait complete before the timeout elapses, `run_agent` returns an
`AgentResult` whose output is the accumulated stdout text followed by the
accumulated stderr text, whose `completion_detected` is true exactly when
that combined output contains the configured completion-signal substring,
whose `success` is (process exited with status 0) AND `completion_detected`,
whose `timed_out` is false, and whose `exit_code` is the exit code of the
process. -/
theorem run_agent_completed_in_time (o : RunAgentOptions) (env : ProcEnv) (st : ExitStatus)
    (hdry : o.dry_run = false) (hspawn : env.spawn = Except.ok ())
    (hstdin : env.stdinWrite = Except.ok ()) (htime : env.timedOut = false)
    (hwait : env.wait = Except.ok st) :
    run_agent o env =
      Except.ok
        ({ success := st.success &&
             strContains (env.stdoutOutput ++ env.stderrOutput) o.config.completion_signal
           output := env.stdoutOutput ++ env.stderrOutput
           timed_out := false
           exit_code := st.code
           completion_detected :=
             strContains (env.stdoutOutput ++ env.stderrOutput) o.config.completion_signal },
          []) := by
  simp [run_agent, hdry, hspawn, hstdin, htime, hwait]

/-- Witness for C4: the echo run of the forwards-events test completes in
time, detects the signal, and succeeds. -/
theorem run_agent_completed_in_time_witness :
    run_agent demoOptions demoEnv =
      Except.ok
        ({ success := ExitStatus.success { code := some 0 } &&
             strContains (demoEnv.stdoutOutput ++ demoEnv.stderrOutput)
               demoOptions.config.completion_signal
           output := demoEnv.stdoutOutput ++ demoEnv.stderrOutput
           timed_out := false
           exit_code := ExitStatus.code { code := some 0 }
           completion_detected :=
             strContains (demoEnv.stdoutOutput ++ demoEnv.stderrOutput)
               demoOptions.config.completion_signal },
          []) :=
  run_agent_completed_in_time demoOptions demoEnv { code := some 0 } rfl rfl rfl rfl rfl

/-- C5: for every run with `dry_run=false` in which the timeout elapses
before reading and waiting complete, `run_agent` returns a normal (non-error)
result with `success=false`, `timed_out=true`, no exit code, and
`completion_detected=false`; a timeout is never surfaced as an error
value. -/
theorem run_agent_timeout_is_result (o : RunAgentOptions) (env : ProcEnv)
    (hdry : o.dry_run = false) (hspawn : env.spawn = Except.ok ())
    (hstdin : env.stdinWrite = Except.ok ()) (htime : env.timedOut = true) :
    run_agent o env =
      Except.ok
        ({ success := false
           output := ""
           timed_out := true
           exit_code := none
           completion_detected := false }, []) := by
  simp [run_agent, hdry, hspawn, hstdin, htime]

/-- Witness for C5: a concrete timed-out run yields the timed-out result. -/
theorem run_agent_timeout_is_result_witness :
    run_agent demoOptions timeoutEnv =
      Except.ok
        ({ success := false
           output := ""
           timed_out := true
           exit_code := none
           completion_detected := false }, []) :=
  run_agent_timeout_is_result demoOptions timeoutEnv rfl rfl rfl rfl

/-- C6: for every run with `dry_run=false`, `run_agent` returns an error
value exactly when spawning fails, or writing the prompt to stdin fails, or
the race completes in time and waiting for the process fails; in every other
case it returns a result. -/
theorem run_agent_error_iff (o : RunAgentOptions) (env : ProcEnv)
    (hdry : o.dry_run = false) :
    (∃ e, run_agent o env = Except.error e) ↔
      ((∃ m, env.spawn = Except.error m) ∨
        (env.spawn = Except.ok () ∧ (∃ m, env.stdinWrite = Except.error m)) ∨
        (env.spawn = Except.ok () ∧ env.stdinWrite = Except.ok () ∧
          env.timedOut = false ∧ ∃ m, env.wait = Except.error m)) := by
  cases hspawn : env.spawn with
  | error m => simp [run_agent, hdry, hspawn]
  | ok u =>
    cases u
    cases hstdin : env.stdinWrite with
    | error m => simp [run_agent, hdry, hspawn, hstdin]
    | ok u2 =>
      cases u2
      cases htime : env.timedOut with
      | true => simp [run_agent, hdry, hspawn, hstdin, htime]
      | false =>
        cases hwait : env.wait with
        | error m => simp [run_agent, hdry, hspawn, hstdin, htime, hwait]
        | ok st => simp [run_agent, hdry, hspawn, hstdin, htime, hwait]

/-- Witness for C6: a run whose process wait fails is exactly an error. -/
theorem run_agent_error_iff_witness :
    (∃ e, run_agent demoOptions waitFailEnv = Except.error e) ↔
      ((∃ m, waitFailEnv.spawn = Except.error m) ∨
        (waitFailEnv.spawn = Except.ok () ∧ (∃ m, waitFailEnv.stdinWrite = Except.error m)) ∨
        (waitFailEnv.spawn = Except.ok () ∧ waitFailEnv.stdinWrite = Except.ok () ∧
          waitFailEnv.timedOut = false ∧ ∃ m, waitFailEnv.wait = Except.error m)) :=
  run_agent_error_iff demoOptions waitFailEnv rfl

/-- C1 (divergence exhibited): on the run of
`test_run_agent_with_tui_forwards_events` — a `dry_run=false` run whose
stdout consists of one line carrying an assistant-text marker — the event
extractor yields an event for that line, yet `run_agent` completes the run
having published no `AgentEvent` at all on any side channel: its
`RunAgentOptions` has no event channel and it never applies
`parse_agent_line` while scanning output for the completion signal. -/
theorem run_agent_publishes_no_events_despite_parsed_line :
    parse_agent_line demoLine = [AgentEvent.assistantText "Thinking about the problem"] ∧
      run_agent demoOptions demoEnv =
        Except.ok
          ({ success := true
             output := demoLine ++ "\n"
             timed_out := false
             exit_code := some 0
             completion_detected := true }, []) :=
  ⟨rfl, rfl⟩

theorem toolsOf_append_thought (s : TuiState) (item_id thought run : String) :
    toolsOf (s.append_thought item_id thought) run = toolsOf s run := by
  unfold toolsOf TuiState.append_thought
  rw [assocFind_assocModify]
  by_cases hr : run = item_id
  · rw [if_pos hr]
    cases assocFind run s.activity_by_item with
    | some a => simp [AgentActivity.appendThought]
    | none => rfl
  · rw [if_neg hr]

theorem toolsOf_update_tool_status (s : TuiState) (item_id tool_use_id : String)
    (status : ToolStatus) (result : Option Json) (now : Nat) (run : String) :
    toolsOf (s.update_tool_status item_id tool_use_id status result now) run =
      if run = item_id then updateFirstTool (toolsOf s run) tool_use_id status result now
      else toolsOf s run := by
  unfold toolsOf TuiState.update_tool_status
  rw [assocFind_assocModify]
  by_cases hr : run = item_id
  · rw [if_pos hr, if_pos hr]
    cases assocFind run s.activity_by_item with
    | some a => rfl
    | none => rfl
  · rw [if_neg hr, if_neg hr]

/-- C2 counterexample: the `Completed` status of a tool is not terminal. In a
reachable state in which tool `t1` has status `Completed`, a subsequent
`ToolError` for the same tool id changes the status again, to `Error`. -/
theorem completed_tool_status_changes_again :
    (toolsOf completedToolState "a").map (fun t => t.status) = [ToolStatus.completed] ∧
      (toolsOf
          (applyUpdate (TuiUpdate.agentEvent "a" (AgentEvent.toolError "t1" "boom")) 3
            completedToolState) "a").map (fun t => t.status) = [ToolStatus.error] := by
  constructor <;> rfl

/-- C2 amended: once the status of a tool has left `Running` it is never set back
to `Running` by any later event — the updates only write `Completed` or
`Error` — but it is not terminal (see the counterexample): every tool that is
`Running` in the buffer of a run after an event was already in that buffer before
the event, or is the tool freshly appended by a `ToolStarted` event carrying
its id. -/
theorem tool_status_never_returns_to_running (s : TuiState) (item_id : String)
    (e : AgentEvent) (now : Nat) (run : String) (t : ToolExecution)
    (hmem : t ∈ toolsOf (handleAgentEvent s item_id e now) run)
    (hrun : t.status = ToolStatus.running) :
    t ∈ toolsOf s run ∨
      ∃ tool_name input, e = AgentEvent.toolStarted t.tool_use_id tool_name input := by
  cases e with
  | assistantText text =>
    left
    cases hsan : sanitize_assistant_text text with
    | some cleaned =>
      have hred : handleAgentEvent s item_id (AgentEvent.assistantText text) now =
          s.append_thought item_id cleaned := by
        simp [handleAgentEvent, hsan]
      rw [hred, toolsOf_append_thought] at hmem
      exact hmem
    | none =>
      have hred : handleAgentEvent s item_id (AgentEvent.assistantText text) now = s := by
        simp [handleAgentEvent, hsan]
      rw [hred] at hmem
      exact hmem
  | toolStarted tool_use_id tool_name input =>
    have hred : handleAgentEvent s item_id (AgentEvent.toolStarted tool_use_id tool_name input)
        now =
        s.append_tool item_id
          { tool_use_id := tool_use_id
            tool_name := tool_name
            input := input
            status := ToolStatus.running
            result := none
            started_at := now
            finished_at := none } := rfl
    rw [hred] at hmem
    unfold toolsOf TuiState.append_tool at hmem
    rw [assocFind_assocModify] at hmem
    by_cases hr : run = item_id
    · rw [if_pos hr] at hmem
      cases hfind : assocFind run s.activity_by_item with
      | none => rw [hfind] at hmem; simp at hmem
      | some a =>
        rw [hfind] at hmem
        simp only [Option.map_some'] at hmem
        have hsub : t ∈ a.tools ++
            [{ tool_use_id := tool_use_id
               tool_name := tool_name
               input := input
               status := ToolStatus.running
               result := none
               started_at := now
               finished_at := none }] := by
          have := hmem
          simp only [AgentActivity.appendTool] at this
          split_ifs at this with hlen
          · exact List.drop_subset 1 _ this
          · exact this
        rcases List.mem_append.mp hsub with hleft | hnew
        · left
          unfold toolsOf
          rw [hfind]
          exact hleft
        · right
          have ht : t =
              { tool_use_id := tool_use_id
                tool_name := tool_name
                input := input
                status := ToolStatus.running
                result := none
                started_at := now
                finished_at := none } := by
            simpa using hnew
          exact ⟨tool_name, input, by rw [ht]⟩
    · rw [if_neg hr] at hmem
      left
      unfold toolsOf
      exact hmem
  | toolResult tool_use_id result =>
    left
    have hred : handleAgentEvent s item_id (AgentEvent.toolResult tool_use_id result) now =
        s.update_tool_status item_id tool_use_id ToolStatus.completed (some result) now := rfl
    rw [hred, toolsOf_update_tool_status] at hmem
    by_cases hr : run = item_id
    · rw [if_pos hr] at hmem
      exact mem_updateFirstTool_running _ _ _ _ _ (by simp) t hmem hrun
    · rwa [if_neg hr] at hmem
  | toolError tool_use_id error =>
    left
    have hred : handleAgentEvent s item_id (AgentEvent.toolError tool_use_id error) now =
        (s.update_tool_status item_id tool_use_id ToolStatus.error none now).append_thought
          item_id ("[ERROR] " ++ error) := rfl
    rw [hred, toolsOf_append_thought, toolsOf_update_tool_status] at hmem
    by_cases hr : run = item_id
    · rw [if_pos hr] at hmem
      exact mem_updateFirstTool_running _ _ _ _ _ (by simp) t hmem hrun
    · rwa [if_neg hr] at hmem
  | error message =>
    left
    have hred : handleAgentEvent s item_id (AgentEvent.error message) now =
        s.append_thought item_id ("[ERROR] " ++ message) := rfl
    rw [hred, toolsOf_append_thought] at hmem
    exact hmem
  | runResult =>
    left
    exact hmem

/-- Witness for C2 amended: the tool running after a `ToolStarted` event on
the fresh state is exactly the freshly appended one. -/
theorem tool_status_never_returns_to_running_witness :
    witnessTool ∈ toolsOf freshDemo "a" ∨
      ∃ tool_name input,
        AgentEvent.toolStarted "t9" "read_file" Json.null =
          AgentEvent.toolStarted witnessTool.tool_use_id tool_name input :=
  tool_status_never_returns_to_running freshDemo "a"
    (AgentEvent.toolStarted "t9" "read_file" Json.null) 7 "a" witnessTool
    (List.Mem.head []) rfl

/-- C9: `parse_agent_line` is total and lossy-tolerant: the empty line yields
no events; a tool-use or tool-result marker whose content is not valid JSON
yields no event for that marker; and a tool-use marker whose decoded payload
lacks the identifier field or the name field yields no event — all silently
dropped, never an error. -/
theorem parse_agent_line_lossy_tolerance :
    parse_agent_line "" = [] ∧
      (∀ line c, extractTag "tool_use" line = some c → parseJson c = none →
        toolUseEventsOf line = []) ∧
      (∀ line c, extractTag "tool_result" line = some c → parseJson c = none →
        toolResultEventsOf line = []) ∧
      (∀ line c j, extractTag "tool_use" line = some c → parseJson c = some j →
        (Json.get j "toolUseId" = none ∨ Json.get j "name" = none) →
        toolUseEventsOf line = []) := by
  refine ⟨rfl, ?_, ?_, ?_⟩
  · intro line c h1 h2
    simp [toolUseEventsOf, h1, h2]
  · intro line c h1 h2
    simp [toolResultEventsOf, h1, h2]
  · intro line c j h1 h2 h3
    rcases h3 with h3 | h3
    · simp [toolUseEventsOf, h1, h2, h3]
    · simp only [toolUseEventsOf, h1, h2, h3]
      cases hid : (Json.get j "toolUseId").bind Json.asStr <;> simp [h3]

/-- Witness for C9: a tool-use marker with malformed payload on a concrete
line contributes no event. -/
theorem parse_agent_line_lossy_tolerance_witness :
    toolUseEventsOf "<tool_use>invalid json</tool_use>" = [] :=
  parse_agent_line_lossy_tolerance.2.1 "<tool_use>invalid json</tool_use>" "invalid json" rfl rfl

theorem bounded_push_length {α : Type} (l : List α) (cap : Nat) (h : l.length ≤ cap + 1) :
    (if l.length > cap then l.drop 1 else l).length ≤ cap := by
  split_ifs with hc
  · simp only [List.length_drop]
    omega
  · omega

theorem appendThought_thoughts_le (a : AgentActivity) (thought : String)
    (h : a.thoughts.length ≤ TuiState.MAX_THOUGHTS) :
    (a.appendThought thought).thoughts.length ≤ TuiState.MAX_THOUGHTS := by
  unfold AgentActivity.appendThought
  apply bounded_push_length
  cases hl : a.thoughts.getLast? with
  | none => simp
  | some last =>
    by_cases hsize : last.utf8ByteSize < 120 <;>
      simp [hsize, List.length_append, List.length_dropLast] <;> omega

theorem appendThought_tools_eq (a : AgentActivity) (thought : String) :
    (a.appendThought thought).tools = a.tools := rfl

theorem appendTool_tools_le (a : AgentActivity) (tool : ToolExecution)
    (h : a.tools.length ≤ TuiState.MAX_TOOLS) :
    (a.appendTool tool).tools.length ≤ TuiState.MAX_TOOLS := by
  unfold AgentActivity.appendTool
  apply bounded_push_length
  simp [List.length_append]
  omega

theorem appendTool_thoughts_eq (a : AgentActivity) (tool : ToolExecution) :
    (a.appendTool tool).thoughts = a.thoughts := rfl

theorem assocModify_forall {β : Type} (P : β → Prop) (key : String) (f : β → β)
    (l : List (String × β)) (hf : ∀ v, P v → P (f v)) (h : ∀ p ∈ l, P p.2) :
    ∀ p ∈ assocModify key f l, P p.2 := by
  induction l with
  | nil => intro p hp; simp [assocModify] at hp
  | cons q rest ih =>
    obtain ⟨k, v⟩ := q
    intro p hp
    by_cases hk : k = key
    · simp only [assocModify, if_pos hk] at hp
      rcases List.mem_cons.mp hp with rfl | htail
      · exact hf v (h (k, v) (List.mem_cons_self _ _))
      · exact h p (List.mem_cons_of_mem _ htail)
    · simp only [assocModify, if_neg hk] at hp
      rcases List.mem_cons.mp hp with rfl | htail
      · exact h (k, v) (List.mem_cons_self _ _)
      · exact ih (fun q hq => h q (List.mem_cons_of_mem _ hq)) p htail

theorem capsInv_append_thought (s : TuiState) (item_id thought : String)
    (h : capsInv s) : capsInv (s.append_thought item_id thought) := by
  obtain ⟨hact, hlogs⟩ := h
  refine ⟨?_, hlogs⟩
  simp only [TuiState.append_thought]
  refine assocModify_forall
    (fun b => b.thoughts.length ≤ TuiState.MAX_THOUGHTS ∧ b.tools.length ≤ TuiState.MAX_TOOLS)
    item_id _ s.activity_by_item ?_ hact
  intro v hv
  exact ⟨appendThought_thoughts_le v thought hv.1, by rw [appendThought_tools_eq]; exact hv.2⟩

theorem capsInv_append_tool (s : TuiState) (item_id : String) (tool : ToolExecution)
    (h : capsInv s) : capsInv (s.append_tool item_id tool) := by
  obtain ⟨hact, hlogs⟩ := h
  refine ⟨?_, hlogs⟩
  simp only [TuiState.append_tool]
  refine assocModify_forall
    (fun b => b.thoughts.length ≤ TuiState.MAX_THOUGHTS ∧ b.tools.length ≤ TuiState.MAX_TOOLS)
    item_id _ s.activity_by_item ?_ hact
  intro v hv
  exact ⟨by rw [appendTool_thoughts_eq]; exact hv.1, appendTool_tools_le v tool hv.2⟩

theorem capsInv_update_tool_status (s : TuiState) (item_id tool_use_id : String)
    (status : ToolStatus) (result : Option Json) (now : Nat)
    (h : capsInv s) : capsInv (s.update_tool_status item_id tool_use_id status result now) := by
  obtain ⟨hact, hlogs⟩ := h
  refine ⟨?_, hlogs⟩
  simp only [TuiState.update_tool_status]
  refine assocModify_forall
    (fun b => b.thoughts.length ≤ TuiState.MAX_THOUGHTS ∧ b.tools.length ≤ TuiState.MAX_TOOLS)
    item_id _ s.activity_by_item ?_ hact
  intro v hv
  refine ⟨hv.1, ?_⟩
  show (updateFirstTool v.tools tool_use_id status result now).length ≤ TuiState.MAX_TOOLS
  rw [updateFirstTool_length]
  exact hv.2

theorem capsInv_applyUpdate (s : TuiState) (u : TuiUpdate) (now : Nat)
    (h : capsInv s) : capsInv (applyUpdate u now s) := by
  obtain ⟨hact, hlogs⟩ := h
  cases u with
  | setCurrentItem item => exact ⟨hact, hlogs⟩
  | setCurrentPhase phase => exact ⟨hact, hlogs⟩
  | setIteration iter => exact ⟨hact, hlogs⟩
  | setCurrentStory story => exact ⟨hact, hlogs⟩
  | setItemState item_id state => exact ⟨hact, hlogs⟩
  | setCompletedCount count => exact ⟨hact, hlogs⟩
  | toggleLogs value => exact ⟨hact, hlogs⟩
  | appendLogs logs =>
    refine ⟨hact, ?_⟩
    show (TuiState.with_logs s logs).logs.length ≤ TuiState.MAX_LOGS
    simp only [TuiState.with_logs]
    split_ifs with hc
    · simp only [List.length_drop]
      omega
    · omega
  | agentEvent item_id e =>
    cases e with
    | assistantText text =>
      cases hsan : sanitize_assistant_text text with
      | some cleaned =>
        have hred :
            applyUpdate (TuiUpdate.agentEvent item_id (AgentEvent.assistantText text)) now s =
              s.append_thought item_id cleaned := by
          simp [applyUpdate, handleAgentEvent, hsan]
        rw [hred]
        exact capsInv_append_thought s item_id cleaned ⟨hact, hlogs⟩
      | none =>
        have hred :
            applyUpdate (TuiUpdate.agentEvent item_id (AgentEvent.assistantText text)) now s =
              s := by
          simp [applyUpdate, handleAgentEvent, hsan]
        rw [hred]
        exact ⟨hact, hlogs⟩
    | toolStarted tool_use_id tool_name input =>
      exact capsInv_append_tool s item_id _ ⟨hact, hlogs⟩
    | toolResult tool_use_id result =>
      exact capsInv_update_tool_status s item_id tool_use_id _ _ now ⟨hact, hlogs⟩
    | toolError tool_use_id error =>
      show capsInv
        ((s.update_tool_status item_id tool_use_id ToolStatus.error none now).append_thought
          item_id ("[ERROR] " ++ error))
      exact capsInv_append_thought _ item_id _
        (capsInv_update_tool_status s item_id tool_use_id _ _ now ⟨hact, hlogs⟩)
    | error message => exact capsInv_append_thought s item_id _ ⟨hact, hlogs⟩
    | runResult => exact ⟨hact, hlogs⟩

theorem capsInv_new (items : List Item) (now : Nat) : capsInv (TuiState.new items now) := by
  constructor
  · intro p hp
    simp only [TuiState.new, List.mem_map] at hp
    obtain ⟨i, _, rfl⟩ := hp
    simp [AgentActivity.default, TuiState.MAX_THOUGHTS, TuiState.MAX_TOOLS]
  · simp [TuiState.new, TuiState.MAX_LOGS]

set_option maxRecDepth 10000

/-- C7: after every consumer-loop operation on the state store, the thought buffer of
every run holds at most 50 entries, the tool buffer of every run at most 20,
and the global log buffer at most 500 (the caps hold in the fresh state and
are preserved by every update); and appending 100 long, non-mergeable
thoughts to one run leaves exactly the newest 50, the oldest evicted first. -/
theorem state_store_buffer_caps :
    (∀ (s : TuiState) (u : TuiUpdate) (now : Nat), capsInv s → capsInv (applyUpdate u now s)) ∧
      (∀ (items : List Item) (now : Nat), capsInv (TuiState.new items now)) ∧
      thoughtsOf c7Final "a" = ((List.range 100).map longThought).drop 50 :=
  ⟨capsInv_applyUpdate, capsInv_new, by decide⟩

/-- Witness for C7: the caps hold after appending a log line to the fresh
demo state. -/
theorem state_store_buffer_caps_witness :
    capsInv (applyUpdate (TuiUpdate.appendLogs ["one line"]) 0 freshDemo) :=
  state_store_buffer_caps.1 freshDemo (TuiUpdate.appendLogs ["one line"]) 0 (by decide)

theorem eraseActivity_appendThought (a : AgentActivity) (thought : String) :
    eraseActivity (a.appendThought thought) = (eraseActivity a).appendThought thought := rfl

theorem eraseActivity_appendTool (a : AgentActivity) (tool : ToolExecution) :
    eraseActivity (a.appendTool tool) = (eraseActivity a).appendTool (eraseTool tool) := by
  simp only [eraseActivity, AgentActivity.appendTool, AgentActivityE.appendTool]
  congr 1
  have hlen : (List.map eraseTool a.tools ++ [eraseTool tool]).length
      = (a.tools ++ [tool]).length := by
    simp
  rw [hlen, apply_ite (List.map eraseTool)]
  congr 1
  · rw [List.map_drop]
    simp
  · simp

theorem eraseTool_updateFirstTool (l : List ToolExecution) (tool_use_id : String)
    (status : ToolStatus) (result : Option Json) (now : Nat) :
    (updateFirstTool l tool_use_id status result now).map eraseTool =
      updateFirstToolE (l.map eraseTool) tool_use_id status result := by
  induction l with
  | nil => rfl
  | cons t rest ih =>
    by_cases ht : t.tool_use_id = tool_use_id
    · simp only [updateFirstTool, ht, if_pos, List.map_cons, updateFirstToolE, eraseTool]
      congr 1
      split_ifs with hst <;> simp
    · simp only [updateFirstTool, if_neg ht, List.map_cons, updateFirstToolE]
      rw [if_neg (show (eraseTool t).tool_use_id ≠ tool_use_id from ht), ih]

theorem mapVals_assocModify {β γ : Type} (g : β → γ) (key : String) (f : β → β)
    (fE : γ → γ) (hfg : ∀ v, g (f v) = fE (g v)) (l : List (String × β)) :
    (assocModify key f l).map (fun p => (p.1, g p.2)) =
      assocModify key fE (l.map (fun p => (p.1, g p.2))) := by
  induction l with
  | nil => rfl
  | cons q rest ih =>
    obtain ⟨k, v⟩ := q
    by_cases hk : k = key
    · simp [assocModify, hk, hfg]
    · simp [assocModify, hk, ih]

theorem eraseState_append_thought (s : TuiState) (item_id thought : String) :
    eraseState (s.append_thought item_id thought) =
      (eraseState s).append_thought item_id thought := by
  simp only [eraseState, TuiState.append_thought, TuiStateE.append_thought]
  congr 1
  exact mapVals_assocModify eraseActivity item_id _ _
    (fun v => eraseActivity_appendThought v thought) s.activity_by_item

theorem eraseState_append_tool (s : TuiState) (item_id : String) (tool : ToolExecution) :
    eraseState (s.append_tool item_id tool) =
      (eraseState s).append_tool item_id (eraseTool tool) := by
  simp only [eraseState, TuiState.append_tool, TuiStateE.append_tool]
  congr 1
  exact mapVals_assocModify eraseActivity item_id _ _
    (fun v => eraseActivity_appendTool v tool) s.activity_by_item

theorem eraseState_update_tool_status (s : TuiState) (item_id tool_use_id : String)
    (status : ToolStatus) (result : Option Json) (now : Nat) :
    eraseState (s.update_tool_status item_id tool_use_id status result now) =
      (eraseState s).update_tool_status item_id tool_use_id status result := by
  simp only [eraseState, TuiState.update_tool_status, TuiStateE.update_tool_status]
  congr 1
  refine mapVals_assocModify eraseActivity item_id _ _ ?_ s.activity_by_item
  intro v
  simp only [eraseActivity]
  congr 1
  exact eraseTool_updateFirstTool v.tools tool_use_id status result now

theorem eraseState_handleAgentEvent (s : TuiState) (item_id : String) (e : AgentEvent)
    (now : Nat) :
    eraseState (handleAgentEvent s item_id e now) =
      handleAgentEventE (eraseState s) item_id e := by
  cases e with
  | assistantText text =>
    show eraseState
        (match sanitize_assistant_text text with
          | some cleaned => s.append_thought item_id cleaned
          | none => s) =
      (match sanitize_assistant_text text with
        | some cleaned => (eraseState s).append_thought item_id cleaned
        | none => eraseState s)
    cases sanitize_assistant_text text with
    | some cleaned => exact eraseState_append_thought s item_id cleaned
    | none => rfl
  | toolStarted tool_use_id tool_name input =>
    exact eraseState_append_tool s item_id _
  | toolResult tool_use_id result =>
    exact eraseState_update_tool_status s item_id tool_use_id _ _ now
  | toolError tool_use_id error =>
    show eraseState
        ((s.update_tool_status item_id tool_use_id ToolStatus.error none now).append_thought
          item_id ("[ERROR] " ++ error)) = _
    rw [eraseState_append_thought, eraseState_update_tool_status]
    rfl
  | error message => exact eraseState_append_thought s item_id _
  | runResult => rfl

theorem eraseState_applyUpdate (u : TuiUpdate) (now : Nat) (s : TuiState) :
    eraseState (applyUpdate u now s) = applyUpdateE u (eraseState s) := by
  cases u with
  | agentEvent item_id e => exact eraseState_handleAgentEvent s item_id e now
  | setCurrentItem item => rfl
  | setCurrentPhase phase => rfl
  | setIteration iter => rfl
  | setCurrentStory story => rfl
  | setItemState item_id state => rfl
  | setCompletedCount count => rfl
  | appendLogs logs => rfl
  | toggleLogs value => rfl

theorem eraseState_applyUpdates (cmds : List TuiUpdate) (clock : List Nat) (s : TuiState) :
    eraseState (applyUpdates cmds clock s) = applyUpdatesE cmds (eraseState s) := by
  induction cmds generalizing clock s with
  | nil => rfl
  | cons u rest ih =>
    show eraseState (applyUpdates rest clock.tail (applyUpdate u (clock.headD 0) s)) =
      applyUpdatesE rest (applyUpdateE u (eraseState s))
    rw [ih, eraseState_applyUpdate]

/-- C3 counterexample: replaying the same one-command sequence against the
same fresh state at two different clock readings produces different
snapshots — the started-at timestamp of the recorded tool differs — so the
applied-update function is not independent of when it runs. -/
theorem replay_snapshots_differ_with_clock :
    ¬ applyUpdates c3Cmds [0] freshDemo = applyUpdates c3Cmds [1] freshDemo := by
  intro h
  have h2 := congrArg (fun s => (toolsOf s "a").map (fun t => t.started_at)) h
  exact absurd h2 (by decide)

/-- C3 amended: replaying an `UpdateCommand` sequence is deterministic in the
command sequence up to wall-clock timestamps: for any two replays of the same
sequence from the same state, at arbitrary clock readings, the resulting
snapshots agree on every field except the recorded timestamps (they are equal
after erasing `start_time`, `started_at`, and the stored `finished_at`
values); in particular, replays with identical clock readings produce
identical snapshots. -/
theorem replay_deterministic_up_to_timestamps (cmds : List TuiUpdate)
    (clock1 clock2 : List Nat) (s : TuiState) :
    eraseState (applyUpdates cmds clock1 s) = eraseState (applyUpdates cmds clock2 s) := by
  rw [eraseState_applyUpdates, eraseState_applyUpdates]

end Wreckit
